import Mathlib

/-!
Shallow embedding of the core of `prometheus/collectd_exporter` (`main.go`):
metric-name and label derivation (`newName`, `newLabels`), value conversion
(`newMetric`), the expiring value-list store fed by `processSamples`
(modelled as `put` / `sweep`), the export path (`Collect`, modelled as
`snapshotVals` / `collectEntry` / `Collect`), and the write path
(`Write`, `collectdPost`).

Strings are modelled as `List Char` (`Str`); Go `time.Time` and
`time.Duration` are modelled as `Int` nanosecond counts, so `t.Add(d)` is
`t + d` and `a.Before(b)` is `a < b`.  The unbuffered channel between
`Write` and `processSamples` is modelled as a synchronous hand-off: a
completed write is a completed store update.
-/

/-- `Str` stands for a Go string, as its list of characters. -/
abbrev Str := List Char

/-- The character class of `metric_name_re = [^a-zA-Z0-9_:]`, positively:
`allowedChar c` holds exactly when `c` is NOT matched by the regex. -/
def allowedChar (c : Char) : Bool :=
  (('a' ≤ c) && (c ≤ 'z')) || (('A' ≤ c) && (c ≤ 'Z')) ||
  (('0' ≤ c) && (c ≤ '9')) || (c == '_') || (c == ':')

/-- `metric_name_re.ReplaceAllString(name, "_")`: the regex matches single
characters outside `[a-zA-Z0-9_:]`, so the replacement substitutes `'_'`
for every disallowed character, one character at a time. -/
def sanitize (s : Str) : Str :=
  s.map (fun c => if allowedChar c then c else '_')

/-- `const timeout = 2`: number of collection intervals after which a
metric becomes stale. -/
def timeout : Int := 2

/-- `api.Value`: a collectd data-source value.  `Gauge`, `Derive` and
`Counter` are the three implementations the exporter recognises; `other`
stands for any further implementation of the Go interface, which falls
into the `default` branch of the type switch in `newMetric`. -/
inductive Value where
  | gauge (v : Int)
  | derive (v : Int)
  | counter (v : Nat)
  | other (tag : Str)
deriving DecidableEq, Repr

/-- `api.Identifier`: the identity tuple of a value list.  The Go field
`Type` is rendered `Typ` because `Type` is reserved in Lean. -/
structure Identifier where
  Host : Str
  Plugin : Str
  PluginInstance : Str
  Typ : Str
  TypeInstance : Str
deriving DecidableEq, Repr

/-- Modelled from the spec: the collectd `api` package (not under `src/`)
serializes an Identity "to a stable string key for storage"
(`Identifier.String()`), in the form
`host/plugin[-pluginInstance]/type[-typeInstance]`. -/
def Identifier.str (id : Identifier) : Str :=
  id.Host ++ ('/' :: id.Plugin) ++
  (if id.PluginInstance ≠ [] then '-' :: id.PluginInstance else []) ++
  ('/' :: id.Typ) ++
  (if id.TypeInstance ≠ [] then '-' :: id.TypeInstance else [])

/-- `api.ValueList`: one decoded sample.  `Time` and `Interval` are
nanosecond counts. -/
structure ValueList where
  Identifier : Identifier
  Time : Int
  Interval : Int
  Values : List Value
  DSNames : List Str
deriving DecidableEq, Repr

instance : Inhabited Value := ⟨.other []⟩

instance : Inhabited Identifier := ⟨[], [], [], [], []⟩

instance : Inhabited ValueList := ⟨default, 0, 0, [], []⟩

/-- Go field promotion: `vl.Host` is `vl.Identifier.Host`. -/
def ValueList.Host (vl : ValueList) : Str := vl.Identifier.Host

/-- Go field promotion: `vl.Plugin` is `vl.Identifier.Plugin`. -/
def ValueList.Plugin (vl : ValueList) : Str := vl.Identifier.Plugin

/-- Go field promotion: `vl.PluginInstance` is `vl.Identifier.PluginInstance`. -/
def ValueList.PluginInstance (vl : ValueList) : Str := vl.Identifier.PluginInstance

/-- Go field promotion: `vl.Typ` is `vl.Identifier.Typ` (Go `vl.Type`). -/
def ValueList.Typ (vl : ValueList) : Str := vl.Identifier.Typ

/-- Go field promotion: `vl.TypeInstance` is `vl.Identifier.TypeInstance`. -/
def ValueList.TypeInstance (vl : ValueList) : Str := vl.Identifier.TypeInstance

/-- `vl.Values[i]`.  Go panics when `i` is out of range; every claim below
restricts to in-range indices, so the default value is never relevant. -/
def ValueList.valueAt (vl : ValueList) (i : Nat) : Value :=
  vl.Values.getD i (Value.other [])

/-- Modelled from the spec: the collectd `api` package (not under `src/`)
provides `ValueList.DSName`, the name of the data source at an index:
the corresponding entry of `DSNames` when that list is set, the index
rendered in decimal when there are several values but no names, and the
sentinel `"value"` otherwise. -/
def ValueList.DSName (vl : ValueList) (i : Nat) : Str :=
  if vl.DSNames ≠ [] then vl.DSNames.getD i []
  else if vl.Values.length ≠ 1 then (toString i).data
  else ('v' :: 'a' :: 'l' :: 'u' :: 'e' :: [])

/-- `newName` (`main.go:61`): derive the metric name for one data source
of a value list: base from plugin and type, then the data-source name
unless it is `"value"`, then `"_total"` for counter-like kinds, then the
regex sanitisation. -/
def newName (vl : ValueList) (index : Nat) : Str :=
  let name :=
    if vl.Plugin = vl.Typ then ("collectd_").data ++ vl.Typ
    else ("collectd_").data ++ vl.Plugin ++ ('_' :: vl.Typ)
  let name :=
    if vl.DSName index ≠ ("value").data then name ++ ('_' :: vl.DSName index)
    else name
  let name :=
    match vl.valueAt index with
    | .counter _ => name ++ ("_total").data
    | .derive _ => name ++ ("_total").data
    | _ => name
  sanitize name

/-- Assignment `m[k] = v` on a Go map, on an association-list model: the
binding for `k` is replaced, every other binding is untouched. -/
def setL (m : List (Str × Str)) (k v : Str) : List (Str × Str) :=
  (k, v) :: m.filter (fun e => !decide (e.1 = k))

/-- `newLabels` (`main.go:80`): the label set of a value list.  The
`instance` key is assigned last, after the plugin-keyed and `type`-keyed
labels. -/
def newLabels (vl : ValueList) : List (Str × Str) :=
  let labels : List (Str × Str) := []
  let labels :=
    if vl.PluginInstance ≠ [] then setL labels vl.Plugin vl.PluginInstance
    else labels
  let labels :=
    if vl.TypeInstance ≠ [] then
      if vl.PluginInstance = [] then setL labels vl.Plugin vl.TypeInstance
      else setL labels (("type").data) vl.TypeInstance
    else labels
  setL labels (("instance").data) vl.Host

/-- The value kind of a converted metric (`prometheus.ValueType`). -/
inductive MetricType where
  | gaugeValue
  | counterValue
deriving DecidableEq, Repr

/-- A converted metric, as built by `prometheus.NewConstMetric` from the
description of `newDesc` (name and constant labels) plus a value type and
a numeric value.  The help text of `newDesc` is presentation only and is
not modelled (spec §1 places exposition rendering out of scope). -/
structure Metric where
  name : Str
  labels : List (Str × Str)
  vtype : MetricType
  value : Int
deriving DecidableEq, Repr

/-- `newMetric` (`main.go:106`): the type switch over `vl.Values[index]`.
Gauges become gauge values, derives and counters become counter values,
and any other implementation of `api.Value` yields the
`"unknown value type"` error. -/
def newMetric (vl : ValueList) (index : Nat) : Except Str Metric :=
  match vl.valueAt index with
  | .gauge v =>
      .ok ⟨newName vl index, newLabels vl, .gaugeValue, v⟩
  | .derive v =>
      .ok ⟨newName vl index, newLabels vl, .counterValue, v⟩
  | .counter v =>
      .ok ⟨newName vl index, newLabels vl, .counterValue, Int.ofNat v⟩
  | .other tag =>
      .error (("unknown value type: ").data ++ tag)

/-- `collectdCollector.valueLists`: the map from `Identifier.String()` keys
to the most recent value list, as an association list with at most one
binding per key. -/
abbrev Store := List (Str × ValueList)

/-- `validUntil := vl.Time.Add(timeout * vl.Interval)`: the staleness
deadline computed (identically) in the sweep branch of `processSamples`
and in `Collect`. -/
def deadline (vl : ValueList) : Int :=
  vl.Time + timeout * vl.Interval

/-- The store write of `processSamples` (`main.go:165`):
`c.valueLists[vl.Identifier.String()] = vl`, a wholesale replacement of
the binding for that key. -/
def put (s : Store) (vl : ValueList) : Store :=
  (vl.Identifier.str, vl) :: s.filter (fun e => !decide (e.1 = vl.Identifier.str))

/-- The ticker branch of `processSamples` (`main.go:171`): delete every
entry whose `validUntil` is strictly before `now`. -/
def sweep (s : Store) (now : Int) : Store :=
  s.filter (fun e => !decide (deadline e.2 < now))

/-- The per-entry filter of `Collect` (`main.go:197`): copy the stored
value lists out, then keep exactly those whose `validUntil` is not
strictly before the single `now` taken for the whole scrape. -/
def snapshotVals (s : Store) (now : Int) : List ValueList :=
  (s.map Prod.snd).filter (fun vl => !decide (deadline vl < now))

/-- The collector's cross-request state: the `lastPush` gauge value and
the value-list store.  The unbuffered channel between `Write` and
`processSamples` is modelled as a synchronous hand-off, so a completed
`Write` is a completed store update. -/
structure SysState where
  lastPush : Int
  store : Store
deriving DecidableEq, Repr

/-- `collectdCollector.Write` (`main.go:223`): set the `lastPush` gauge to
the current time, hand the value list to `processSamples` (which stores
it), and return `nil` — the returned error is always `none`. -/
def Write (now : Int) (st : SysState) (vl : ValueList) : SysState × Option Str :=
  (⟨now, put st.store vl⟩, none)

/-- A completed delivery of one sample arriving at time `arrival`: the
state after `Write` has returned and `processSamples` has stored the
sample. -/
def deliver (arrival : Int) (st : SysState) (vl : ValueList) : SysState :=
  (Write arrival st vl).1

/-- The HTTP outcome of the push handler. -/
inductive HttpResponse where
  | ok
  | badRequest (msg : Str)
deriving DecidableEq, Repr

/-- `collectdCollector.collectdPost` (`main.go:143`), from the decoded
body onward (JSON decoding itself is a collaborator, spec §1): a decode
failure answers 400; a decoded list of value lists is written one by one
via `Write` and the handler returns without error (HTTP 200). -/
def collectdPost (now : Int) (st : SysState) (decoded : Except Str (List ValueList)) :
    SysState × HttpResponse :=
  match decoded with
  | .error e => (st, .badRequest e)
  | .ok vls => (vls.foldl (fun s vl => (Write now s vl).1) st, .ok)

/-- The `lastPush` gauge as emitted first by `Collect` (`main.go:188`). -/
def lastPushMetric (lp : Int) : Metric :=
  ⟨("collectd_last_push_timestamp_seconds").data, [], .gaugeValue, lp⟩

/-- The inner loop of `Collect` (`main.go:204`): convert every data
source of one value list, skipping (with a logged error) the indices
`newMetric` rejects. -/
def collectEntry (vl : ValueList) : List Metric :=
  (List.range vl.Values.length).filterMap (fun i => (newMetric vl i).toOption)

/-- `collectdCollector.Collect` (`main.go:187`): emit the `lastPush`
gauge, then for every stored value list still valid at the scrape's
single `now`, every convertible data-source value. -/
def Collect (st : SysState) (now : Int) : List Metric :=
  lastPushMetric st.lastPush :: (snapshotVals st.store now).flatMap collectEntry

/-- Counter-like value kinds (counter and derive), as classified by the
`"_total"` branch of `newName`. -/
def isCounterLike : Value → Bool
  | .counter _ => true
  | .derive _ => true
  | _ => false

/-- Value kinds recognised by the type switch of `newMetric`. -/
def isKnown : Value → Bool
  | .other _ => false
  | _ => true

/-- The data-source-name fragment of `newName`: `"_" ++ dsname` unless the
data-source name is the sentinel `"value"`. -/
def dsSuffix (vl : ValueList) (i : Nat) : Str :=
  if vl.DSName i ≠ ("value").data then '_' :: vl.DSName i else []

/-- The `"_total"` fragment of `newName`: appended exactly for
counter-like value kinds. -/
def totalSuffix (vl : ValueList) (i : Nat) : Str :=
  if isCounterLike (vl.valueAt i) then ("_total").data else []

/-! ### Helper lemmas -/

theorem sanitize_append (a b : Str) : sanitize (a ++ b) = sanitize a ++ sanitize b :=
  List.map_append _ a b

theorem mem_sanitize (s : Str) (c : Char) (h : c ∈ sanitize s) : allowedChar c = true := by
  unfold sanitize at h
  rcases List.mem_map.mp h with ⟨x, -, rfl⟩
  by_cases hx : allowedChar x = true
  · simp [hx]
  · simp only [Bool.not_eq_true] at hx
    simp [hx]
    decide

theorem mem_snapshotVals (s : Store) (now : Int) (vl : ValueList) :
    vl ∈ snapshotVals s now ↔ vl ∈ s.map Prod.snd ∧ now ≤ deadline vl := by
  simp [snapshotVals, List.mem_filter, not_lt]

theorem snapshot_sweep_eq (s : Store) {nowS now : Int} (h : nowS ≤ now) :
    snapshotVals (sweep s nowS) now = snapshotVals s now := by
  rw [snapshotVals, snapshotVals, sweep, List.filter_map, List.filter_map,
    List.filter_filter]
  congr 1
  apply List.filter_congr
  intro e _
  simp only [Function.comp]
  by_cases h1 : deadline e.2 < now <;> by_cases h2 : deadline e.2 < nowS <;>
    simp [h1, h2] <;> omega

/-! ### Claims -/

/-- C1: the claim states that the validity deadline of a stored entry is
the arrival time recorded at write time plus `timeout * interval`.  It is
false: the deadline is computed from the timestamp carried inside the
sample.  Concretely, a sample with `Time = 0` and `Interval = 10`
delivered at arrival time `100` is already absent from a snapshot at
`now = 50`, although `50 ≤ 100 + timeout * 10`, i.e. the claimed deadline
has not passed. -/
theorem c1_arrival_counterexample :
    snapshotVals
        (deliver 100 ⟨0, []⟩
          ⟨⟨("h").data, ("cpu").data, [], ("cpu").data, []⟩, 0, 10,
            [.gauge 1], [("value").data]⟩).store 50 = []
    ∧ (50 : Int) ≤ 100 + timeout * 10 := by
  constructor
  · decide
  · decide

/-- C1 (amended): the validity deadline used by both the snapshot filter
and the sweeper is `vl.Time + timeout * vl.Interval`, computed from the
timestamp carried inside the sample; the arrival time of the write plays
no role (deliveries at different arrival times leave identical stores). -/
theorem c1_deadline_from_sample_time (a₁ a₂ : Int) (st : SysState) (vl : ValueList) :
    (deliver a₁ st vl).store = (deliver a₂ st vl).store
    ∧ (∀ now, vl ∈ snapshotVals (deliver a₁ st vl).store now ↔
        now ≤ vl.Time + timeout * vl.Interval)
    ∧ (∀ now, (vl.Identifier.str, vl) ∈ sweep (deliver a₁ st vl).store now ↔
        now ≤ vl.Time + timeout * vl.Interval) := by
  refine ⟨rfl, fun now => ?_, fun now => ?_⟩
  · rw [mem_snapshotVals]
    constructor
    · exact fun h => h.2
    · intro h
      exact ⟨by simp [deliver, Write, put], h⟩
  · rw [sweep, List.mem_filter]
    constructor
    · intro h
      have := h.2
      simp only [Bool.not_eq_eq_eq_not, Bool.not_true, decide_eq_false_iff_not,
        not_lt, deadline] at this
      exact this
    · intro h
      refine ⟨by simp [deliver, Write, put], ?_⟩
      simp only [Bool.not_eq_eq_eq_not, Bool.not_true, decide_eq_false_iff_not,
        not_lt, deadline]
      exact h

/-- A sample whose plugin (`dns`) is a proper prefix of its type
(`dns_qtype`), as in the repository's own `TestNewName` table. -/
def dnsSample : ValueList :=
  ⟨⟨("h").data, ("dns").data, [], ("dns_qtype").data, []⟩, 0, 0,
    [.derive 0], [("value").data]⟩

/-- C2: the claim states that the plugin name is omitted from the base
whenever it is a prefix of the type name.  It is false: `newName` only
compares plugin and type for equality, so plugin `dns` with type
`dns_qtype` (where the plugin is a proper prefix of the type) yields
`collectd_dns_dns_qtype_total`, not the claimed `collectd_dns_qtype_total`. -/
theorem c2_prefix_counterexample :
    dnsSample.Typ = dnsSample.Plugin ++ ("_qtype").data
    ∧ newName dnsSample 0 = ("collectd_dns_dns_qtype_total").data
    ∧ newName dnsSample 0 ≠ ("collectd_dns_qtype_total").data := by
  refine ⟨?_, ?_, ?_⟩
  · decide
  · decide
  · decide

/-- C2 (amended): the base of the derived name is `"collectd_" ++ type`
exactly when the plugin name equals the type name; in every other case —
including when the plugin name is a proper prefix of the type name — the
base is `"collectd_" ++ plugin ++ "_" ++ type`. -/
theorem c2_base_equality_only (vl : ValueList) (i : Nat) :
    (vl.Plugin = vl.Typ →
      newName vl i
        = sanitize (("collectd_").data ++ vl.Typ ++ dsSuffix vl i ++ totalSuffix vl i))
    ∧ (vl.Plugin ≠ vl.Typ →
      newName vl i
        = sanitize (("collectd_").data ++ vl.Plugin ++ ('_' :: vl.Typ)
            ++ dsSuffix vl i ++ totalSuffix vl i)) := by
  constructor <;> intro h <;>
    · unfold newName dsSuffix totalSuffix isCounterLike
      simp only [h, if_true, if_false, ite_true, ite_false, ne_eq,
        not_true_eq_false, not_false_eq_true]
      by_cases hds : vl.DSName i = ("value").data <;>
        cases hval : vl.valueAt i <;>
        simp [hds, hval, List.append_assoc]

/-- C2 (amended), witnessed at the `dns`/`dns_qtype` sample. -/
theorem c2_base_equality_only_witness :
    dnsSample.Plugin ≠ dnsSample.Typ
    ∧ newName dnsSample 0
        = sanitize (("collectd_").data ++ dnsSample.Plugin ++ ('_' :: dnsSample.Typ)
            ++ dsSuffix dnsSample 0 ++ totalSuffix dnsSample 0) :=
  ⟨by decide, (c2_base_equality_only dnsSample 0).2 (by decide)⟩

/-- C3: an entry is exported at `now` exactly when it is still stored and
`now` is at most its deadline; and for any sweep time not after the
snapshot time, sweeping beforehand does not change the snapshot — the
read path filters by deadline on its own, so an expired but
not-yet-evicted entry is never exported. -/
theorem c3_export_iff_deadline (s : Store) (now : Int) (vl : ValueList) :
    (vl ∈ snapshotVals s now ↔ vl ∈ s.map Prod.snd ∧ now ≤ deadline vl)
    ∧ (∀ nowS, nowS ≤ now → snapshotVals (sweep s nowS) now = snapshotVals s now) :=
  ⟨mem_snapshotVals s now vl, fun _ h => snapshot_sweep_eq s h⟩

/-- A first sample for the C3/C4 concrete scenarios. -/
def cpuSampleA : ValueList :=
  ⟨⟨("h").data, ("cpu").data, [], ("cpu").data, []⟩, 100, 10,
    [.derive 3], [("value").data]⟩

/-- A second sample with the same identity as `cpuSampleA`. -/
def cpuSampleB : ValueList :=
  ⟨⟨("h").data, ("cpu").data, [], ("cpu").data, []⟩, 200, 10,
    [.derive 7], [("value").data]⟩

/-- C3, witnessed at a one-entry store with sweep time `105 ≤ 110`. -/
theorem c3_export_iff_deadline_witness :
    (105 : Int) ≤ 110
    ∧ snapshotVals (sweep [(cpuSampleA.Identifier.str, cpuSampleA)] 105) 110
        = snapshotVals [(cpuSampleA.Identifier.str, cpuSampleA)] 110 :=
  ⟨by decide,
    (c3_export_iff_deadline [(cpuSampleA.Identifier.str, cpuSampleA)] 110 cpuSampleA).2
      105 (by decide)⟩

/-- C4: after a sequence of puts all carrying the same identity, the
store holds exactly one entry under that identity's key, namely the last
sample of the sequence; and any snapshot taken afterwards (at a time not
past the last sample's deadline) contains that last sample. -/
theorem c4_last_write_wins (s : Store) (id : Identifier)
    (init : List ValueList) (lastVl : ValueList)
    (h : ∀ v ∈ init ++ [lastVl], v.Identifier = id) :
    ((init ++ [lastVl]).foldl put s).filter (fun e => decide (e.1 = id.str))
      = [(id.str, lastVl)]
    ∧ ∀ now, now ≤ deadline lastVl →
        lastVl ∈ snapshotVals ((init ++ [lastVl]).foldl put s) now := by
  have hlast : lastVl.Identifier = id := h lastVl (by simp)
  rw [List.foldl_append]
  simp only [List.foldl_cons, List.foldl_nil]
  constructor
  · simp only [put, hlast]
    rw [List.filter_cons_of_pos (by simp), List.filter_filter]
    have : ∀ e : Str × ValueList,
        (decide (e.1 = id.str) && !decide (e.1 = id.str)) = false := by
      intro e
      by_cases he : e.1 = id.str <;> simp [he]
    rw [List.filter_congr (fun e _ => this e), List.filter_false]
  · intro now hnow
    rw [mem_snapshotVals]
    exact ⟨by simp [put], hnow⟩

/-- C4, witnessed with two puts of the same identity into the empty
store: only the second sample remains, and a snapshot at time `215` (its
deadline is `220`) contains it. -/
theorem c4_last_write_wins_witness :
    (∀ v ∈ [cpuSampleA] ++ [cpuSampleB], v.Identifier = cpuSampleA.Identifier)
    ∧ (([cpuSampleA] ++ [cpuSampleB]).foldl put []).filter
        (fun e => decide (e.1 = cpuSampleA.Identifier.str))
        = [(cpuSampleA.Identifier.str, cpuSampleB)]
    ∧ (215 : Int) ≤ deadline cpuSampleB
    ∧ cpuSampleB ∈ snapshotVals (([cpuSampleA] ++ [cpuSampleB]).foldl put []) 215 := by
  have hmain := c4_last_write_wins [] cpuSampleA.Identifier [cpuSampleA] cpuSampleB
    (by decide)
  exact ⟨by decide, hmain.1, by decide, hmain.2 215 (by decide)⟩

/-- C5: `sweep now` keeps exactly the stored entries whose deadline is at
least `now` (each kept entry unchanged), and a snapshot at the same `now`
is unaffected by the sweep. -/
theorem c5_sweep_removes_expired_only (s : Store) (now : Int) :
    (∀ e : Str × ValueList, e ∈ sweep s now ↔ e ∈ s ∧ now ≤ deadline e.2)
    ∧ snapshotVals (sweep s now) now = snapshotVals s now :=
  ⟨fun e => by simp [sweep, List.mem_filter, not_lt],
    snapshot_sweep_eq s le_rfl⟩

/-- A gauge sample whose data-source name itself ends in `_total`. -/
def gaugeTotalSample : ValueList :=
  ⟨⟨("h").data, ("p").data, [], ("t").data, []⟩, 0, 0,
    [.gauge 0], [("x_total").data]⟩

/-- C6: the claim states that a gauge-like value never yields a name
ending in `"_total"`.  It is false: `newName` only refrains from
*appending* `"_total"` for gauges, but the data-source name (here
`x_total`) can itself end in `_total`, giving `collectd_p_t_x_total` for
a gauge value. -/
theorem c6_gauge_total_counterexample :
    isCounterLike (gaugeTotalSample.valueAt 0) = false
    ∧ newName gaugeTotalSample 0 = ("collectd_p_t_x_total").data
    ∧ ("_total").data <:+ newName gaugeTotalSample 0 := by
  refine ⟨?_, ?_, ?_⟩
  · decide
  · decide
  · decide

/-- C6 (amended): a counter-like value (counter or derive) always yields
a name ending in `"_total"`; for a gauge-like value `"_total"` is never
appended — the name is the sanitised base plus data-source fragment — so
the name can end in `"_total"` only when that underlying text itself
does. -/
theorem c6_total_suffix (vl : ValueList) (i : Nat) :
    (isCounterLike (vl.valueAt i) = true → ("_total").data <:+ newName vl i)
    ∧ (isCounterLike (vl.valueAt i) = false →
        newName vl i
          = sanitize ((if vl.Plugin = vl.Typ then ("collectd_").data ++ vl.Typ
              else ("collectd_").data ++ vl.Plugin ++ ('_' :: vl.Typ))
            ++ dsSuffix vl i)) := by
  constructor <;> intro h
  · have hname : newName vl i
        = sanitize ((if vl.Plugin = vl.Typ then ("collectd_").data ++ vl.Typ
            else ("collectd_").data ++ vl.Plugin ++ ('_' :: vl.Typ))
          ++ dsSuffix vl i ++ ("_total").data) := by
      unfold newName dsSuffix
      cases hval : vl.valueAt i <;> simp_all [isCounterLike] <;>
        by_cases hds : vl.DSName i = ("value").data <;>
          simp [hds, List.append_assoc]
    rw [hname, sanitize_append]
    have : sanitize (("_total").data) = ("_total").data := by decide
    rw [this]
    exact List.suffix_append _ _
  · unfold newName dsSuffix
    cases hval : vl.valueAt i <;> simp_all [isCounterLike] <;>
      by_cases hds : vl.DSName i = ("value").data <;>
        simp [hds, List.append_assoc]

/-- C6 (amended), witnessed at a counter sample (`if_octets`/`tx`) and at
a gauge sample (`df`/`used`). -/
theorem c6_total_suffix_witness :
    (isCounterLike
        ((⟨⟨("h").data, ("interface").data, [], ("if_octets").data, []⟩, 0, 0,
          [.counter 0, .counter 1], [("rx").data, ("tx").data]⟩ : ValueList).valueAt 1)
      = true)
    ∧ ("_total").data <:+
        newName (⟨⟨("h").data, ("interface").data, [], ("if_octets").data, []⟩, 0, 0,
          [.counter 0, .counter 1], [("rx").data, ("tx").data]⟩ : ValueList) 1 :=
  ⟨by decide,
    (c6_total_suffix (⟨⟨("h").data, ("interface").data, [], ("if_octets").data, []⟩,
      0, 0, [.counter 0, .counter 1], [("rx").data, ("tx").data]⟩ : ValueList) 1).1
      (by decide)⟩

theorem filterMap_eq_filterMap_filter {α β : Type} (f : α → Option β) (p : α → Bool)
    (l : List α) (h : ∀ a ∈ l, p a = false → f a = none) :
    l.filterMap f = (l.filter p).filterMap f := by
  induction l with
  | nil => rfl
  | cons a t ih =>
      have ht : ∀ a ∈ t, p a = false → f a = none :=
        fun x hx => h x (List.mem_cons_of_mem a hx)
      by_cases hp : p a = true
      · rw [List.filter_cons_of_pos hp, List.filterMap_cons, List.filterMap_cons, ih ht]
      · simp only [Bool.not_eq_true] at hp
        rw [List.filter_cons_of_neg (by simp [hp]), List.filterMap_cons,
          h a (List.mem_cons_self a t) hp, ih ht]

/-- The entry holding an unknown-kind value for the C7 scenario. -/
def mixedSample : ValueList :=
  ⟨⟨("h").data, ("df").data, [], ("df").data, []⟩, 100, 10,
    [.gauge 5, .other ("absolute").data], [("used").data, ("free").data]⟩

/-- A collector state whose store holds `mixedSample` and `cpuSampleA`. -/
def mixedState : SysState :=
  ⟨7, put (put [] cpuSampleA) mixedSample⟩

/-- C7: an in-range data-source value of unknown kind makes `newMetric`
return an error (recorded, never fatal): the entry's metrics are exactly
those of its other, recognised indices, every recognised index still
converts, every valid entry's metrics are still emitted by `Collect`, and
the scrape still succeeds, emitting the `lastPush` gauge first
unconditionally. -/
theorem c7_unknown_kind_skipped (st : SysState) (now : Int) (vl : ValueList) (i : Nat)
    (hrange : i < vl.Values.length) (hu : isKnown (vl.valueAt i) = false) :
    (∃ e, newMetric vl i = .error e)
    ∧ collectEntry vl
        = ((List.range vl.Values.length).filter (fun j => !decide (j = i))).filterMap
            (fun j => (newMetric vl j).toOption)
    ∧ (∀ j, j < vl.Values.length → isKnown (vl.valueAt j) = true →
        ((newMetric vl j).toOption).isSome = true)
    ∧ (∀ vl₂ ∈ snapshotVals st.store now, ∀ m ∈ collectEntry vl₂, m ∈ Collect st now)
    ∧ (Collect st now).head? = some (lastPushMetric st.lastPush) := by
  have herr : ∃ e, newMetric vl i = .error e := by
    unfold newMetric
    cases hval : vl.valueAt i <;> simp_all [isKnown]
  refine ⟨herr, ?_, ?_, ?_, rfl⟩
  · unfold collectEntry
    apply filterMap_eq_filterMap_filter
    intro j _ hji
    simp only [Bool.not_eq_false', decide_eq_true_eq] at hji
    subst hji
    rcases herr with ⟨e, he⟩
    rw [he]
    rfl
  · intro j _ hj
    unfold newMetric
    cases hval : vl.valueAt j <;> simp_all [isKnown, Except.toOption]
  · intro vl₂ h2 m hm
    unfold Collect
    exact List.mem_cons_of_mem _ (List.mem_flatMap.mpr ⟨vl₂, h2, hm⟩)

/-- C7, witnessed at `mixedState` and `mixedSample` (whose value at index
`1` is of unknown kind): the known gauge at index `0` is still emitted,
other entries are still emitted, and the scrape succeeds. -/
theorem c7_unknown_kind_skipped_witness :
    (1 < mixedSample.Values.length ∧ isKnown (mixedSample.valueAt 1) = false)
    ∧ collectEntry mixedSample
        = ((List.range mixedSample.Values.length).filter (fun j => !decide (j = 1))).filterMap
            (fun j => (newMetric mixedSample j).toOption)
    ∧ (Collect mixedState 105).head? = some (lastPushMetric mixedState.lastPush) :=
  ⟨⟨by decide, by decide⟩,
    (c7_unknown_kind_skipped mixedState 105 mixedSample 1 (by decide) (by decide)).2.1,
    (c7_unknown_kind_skipped mixedState 105 mixedSample 1 (by decide) (by decide)).2.2.2.2⟩

/-- C8: every character of a derived metric name lies in the class
`[A-Za-z0-9_:]` — `newName` passes the assembled raw name through the
`metric_name_re` substitution, which maps every character outside the
class to `'_'`. -/
theorem c8_name_charset (vl : ValueList) (i : Nat) (c : Char)
    (h : c ∈ newName vl i) : allowedChar c = true := by
  unfold newName at h
  exact mem_sanitize _ c h

/-- C8, witnessed at a sample whose plugin and type contain characters
(`-`, `.`) outside the class: the name evaluates to
`collectd_cpu_0_c_t` and the character `:` test holds for each of its
characters, here checked at `'_'`. -/
theorem c8_name_charset_witness :
    ('_' ∈ newName (⟨⟨("h").data, ("cpu-0").data, [], ("c.t").data, []⟩, 0, 0,
        [.gauge 0], [("value").data]⟩ : ValueList) 0)
    ∧ allowedChar '_' = true :=
  ⟨by decide,
    c8_name_charset (⟨⟨("h").data, ("cpu-0").data, [], ("c.t").data, []⟩, 0, 0,
      [.gauge 0], [("value").data]⟩ : ValueList) 0 '_' (by decide)⟩

/-- C9: the write path never reports a per-sample failure — `Write`
returns `nil` for every input (samples with zero or negative interval
included; nothing is validated), and once the JSON body decodes the push
handler writes every sample and answers success, regardless of the
samples' contents. -/
theorem c9_write_never_fails (now : Int) (st : SysState) (vl : ValueList)
    (vls : List ValueList) :
    (Write now st vl).2 = none
    ∧ (collectdPost now st (.ok vls)).2 = HttpResponse.ok
    ∧ (collectdPost now st (.ok vls)).1
        = vls.foldl (fun s v => (Write now s v).1) st :=
  ⟨rfl, rfl, rfl⟩

/-- C10: `newLabels` always maps the key `"instance"` to the sample's
host — the `"instance"` assignment runs last — and when the plugin name
is itself `"instance"` (with a non-empty plugin- or type-instance) the
plugin-derived label is overwritten by the host value, leaving one label
fewer than the same sample would produce under a generic plugin name. -/
theorem c10_instance_label_overwrites (vl : ValueList) (p : Str) :
    (newLabels vl).lookup (("instance").data) = some vl.Host
    ∧ (vl.Plugin = ("instance").data →
        (vl.PluginInstance ≠ [] ∨ vl.TypeInstance ≠ []) →
        p ≠ ("instance").data → p ≠ ("type").data →
        (newLabels vl).length + 1
          = (newLabels ⟨⟨vl.Identifier.Host, p, vl.Identifier.PluginInstance,
              vl.Identifier.Typ, vl.Identifier.TypeInstance⟩,
              vl.Time, vl.Interval, vl.Values, vl.DSNames⟩).length) := by
  constructor
  · unfold newLabels setL
    simp [List.lookup]
  · intro hplug hne hp1 hp2
    unfold newLabels setL
    simp only [ValueList.Plugin, ValueList.PluginInstance, ValueList.TypeInstance,
      ValueList.Host] at *
    by_cases hPI : vl.Identifier.PluginInstance = [] <;>
      by_cases hTI : vl.Identifier.TypeInstance = []
    · rcases hne with hne | hne
      · exact absurd hPI hne
      · exact absurd hTI hne
    · simp [hPI, hTI, hplug, hp1, hp2, List.filter]
    · simp [hPI, hTI, hplug, hp1, hp2, List.filter]
    · simp [hPI, hTI, hplug, hp1, hp2, List.filter]

/-- C10, witnessed at a sample whose plugin name is `instance`: its label
set has one label fewer than the same sample under plugin name `cpu`. -/
theorem c10_instance_label_overwrites_witness :
    (newLabels (⟨⟨("ex.com").data, ("instance").data, ("0").data, ("cpu").data,
        ("user").data⟩, 0, 0, [.gauge 1], [("value").data]⟩ : ValueList)).length + 1
      = (newLabels (⟨⟨("ex.com").data, ("cpu").data, ("0").data, ("cpu").data,
          ("user").data⟩, 0, 0, [.gauge 1], [("value").data]⟩ : ValueList)).length :=
  (c10_instance_label_overwrites
    (⟨⟨("ex.com").data, ("instance").data, ("0").data, ("cpu").data,
      ("user").data⟩, 0, 0, [.gauge 1], [("value").data]⟩ : ValueList)
    (("cpu").data)).2 (by decide) (Or.inl (by decide)) (by decide) (by decide)
